import Mathlib

/-!
Verification of the next-express route compiler (src/src-rust/src/main.rs).

The development shallowly embeds the pure core of the compiler:
strings are Lean `String`s (with path arithmetic carried out on their
`List Char` data), the route tree is an inductive mirroring `AppRoute`,
filesystem reads (route-file parsing) are abstracted as an explicit
`scan` environment passed to the compiler, and every fallible step
returns `Except CompileError`.  Each definition keeps the name and the
structure of the Rust item it embeds.
-/

/-- Shorthand: the character list underlying a string literal. -/
def str (s : String) : List Char := s.data

/-- Embeds `l.replaceChar a b` replaces every occurrence of the character `a`
by `b`; embeds Rust `str::replace(char, str)` for one-character
replacements such as `.replace('-', "_")`. -/
def replaceChar (a b : Char) (l : List Char) : List Char :=
  l.map (fun c => if c = a then b else c)

/-- Embeds `removeChar a l` deletes every occurrence of the character `a`;
embeds Rust `.replace('(', "")`. -/
def removeChar (a : Char) (l : List Char) : List Char :=
  l.filter (fun c => c ≠ a)

/-- Fuel-bounded worker for `removeAll`.  The fuel starts at the length
of the list, which the scan never exhausts, so this is exactly Rust's
left-to-right non-overlapping `str::replace(pat, "")`. -/
def removeAllAux (pat : List Char) : Nat → List Char → List Char
  | _, [] => []
  | 0, l => l
  | fuel + 1, c :: cs =>
    if pat ≠ [] ∧ pat.isPrefixOf (c :: cs) then
      removeAllAux pat fuel ((c :: cs).drop pat.length)
    else
      c :: removeAllAux pat fuel cs

/-- Rust `s.replace(pat, "")`: delete every (left-to-right,
non-overlapping) occurrence of the substring `pat`. -/
def removeAll (pat l : List Char) : List Char :=
  removeAllAux pat l.length l

/-- Fuel-bounded worker for `replaceAllSub`. -/
def replaceAllSubAux (pat rep : List Char) : Nat → List Char → List Char
  | _, [] => []
  | 0, l => l
  | fuel + 1, c :: cs =>
    if pat ≠ [] ∧ pat.isPrefixOf (c :: cs) then
      rep ++ replaceAllSubAux pat rep fuel ((c :: cs).drop pat.length)
    else
      c :: replaceAllSubAux pat rep fuel cs

/-- Rust `s.replace(pat, rep)` for a non-empty pattern: replace every
left-to-right non-overlapping occurrence of `pat` by `rep`. -/
def replaceAllSub (pat rep l : List Char) : List Char :=
  replaceAllSubAux pat rep l.length l

/-- Rust `str::split('/')`: split at every separator, keeping empty
segments, so that the result is never the empty list. -/
def splitOnChar (sep : Char) : List Char → List (List Char)
  | [] => [[]]
  | c :: cs =>
    match splitOnChar sep cs with
    | [] => [[]]
    | s :: ss => if c = sep then [] :: s :: ss else (c :: s) :: ss

/-- Rust `str::starts_with(pat).then-strip` as used via
`strip_prefix(pat).unwrap_or(self)`: drop a leading occurrence of
`pat`, or return the list unchanged when `pat` does not lead. -/
def stripPrefixOrSelf (pat l : List Char) : List Char :=
  if pat.isPrefixOf l then l.drop pat.length else l

/-- Rust `str::ends_with(pat)`. -/
def endsWithList (pat l : List Char) : Bool :=
  pat.reverse.isPrefixOf l.reverse

/-- Number of occurrence positions of the substring `pat` in `l`
(used to count how many times a marker such as `.all(` was emitted). -/
def countSub (pat : List Char) : List Char → Nat
  | [] => 0
  | c :: cs => (if pat.isPrefixOf (c :: cs) then 1 else 0) + countSub pat cs

/-- Rust `str::to_uppercase` restricted to the ASCII handler names the
compiler upcases (`to_uppercase` agrees with ASCII upcasing there). -/
def rustToUppercase (s : String) : String :=
  String.mk (s.data.map Char.toUpper)

/-- Rust `str::to_lowercase` on the ASCII node names being sorted. -/
def rustToLowercase (s : String) : String :=
  String.mk (s.data.map Char.toLower)

/-- Rust `str::trim`: drop leading and trailing whitespace. -/
def rustTrim (s : String) : String :=
  String.mk (((s.data.dropWhile Char.isWhitespace).reverse.dropWhile Char.isWhitespace).reverse)

/-- Byte/codepoint lexicographic `≤` on character lists, the order
underlying Rust's `String::cmp` (UTF-8 byte order equals codepoint
order). -/
def charListLe : List Char → List Char → Bool
  | [], _ => true
  | _ :: _, [] => false
  | a :: as, b :: bs =>
    if a.val < b.val then true
    else if b.val < a.val then false
    else charListLe as bs

/-- Decidable equality for `Except` values (componentwise). -/
instance {ε α : Type} [DecidableEq ε] [DecidableEq α] : DecidableEq (Except ε α) :=
  fun a b =>
    match a, b with
    | .error x, .error y =>
      if h : x = y then isTrue (by rw [h]) else isFalse (fun hc => by cases hc; exact h rfl)
    | .error _, .ok _ => isFalse (fun hc => by cases hc)
    | .ok _, .error _ => isFalse (fun hc => by cases hc)
    | .ok x, .ok y =>
      if h : x = y then isTrue (by rw [h]) else isFalse (fun hc => by cases hc; exact h rfl)

/-! ## The data model (main.rs lines 31–144) -/

/-- Embeds `struct SubRouter` (main.rs:31): the transient descriptor of a
sub-router created for a middleware-owning node — its generated
identifier and its absolute mount path from the app root. -/
structure SubRouter where
  identifier : String
  path : String
  deriving DecidableEq

/-- Embeds `struct AppRoute` (main.rs:37): a route-tree node.  `sub_router` is
the transient field filled during compilation (always `none` as built). -/
inductive AppRoute where
  | mk
    (name : String)
    (relative_path : String)
    (route : Option String)
    (middlewares : Option String)
    (children : List AppRoute)
    (sub_router : Option SubRouter)

/-- Field accessor for `AppRoute.name`. -/
def AppRoute.name : AppRoute → String
  | .mk n _ _ _ _ _ => n

/-- Field accessor for `AppRoute.relative_path`. -/
def AppRoute.relative_path : AppRoute → String
  | .mk _ rp _ _ _ _ => rp

/-- Field accessor for `AppRoute.route`. -/
def AppRoute.route : AppRoute → Option String
  | .mk _ _ r _ _ _ => r

/-- Field accessor for `AppRoute.middlewares`. -/
def AppRoute.middlewares : AppRoute → Option String
  | .mk _ _ _ m _ _ => m

/-- Field accessor for `AppRoute.children`. -/
def AppRoute.children : AppRoute → List AppRoute
  | .mk _ _ _ _ cs _ => cs

/-- Embeds `struct EndpointHandler` (main.rs:140): one handler discovered in a
route module — its exported name and whether it is `async` (deferred). -/
structure EndpointHandler where
  export_name : String
  is_async : Bool
  deriving DecidableEq

/-- Embeds `struct Convention` (main.rs:59): the naming-convention registry. -/
structure Convention where
  server_template : String
  app_dir_name : String
  support_ext : List String
  route_file_basename : String
  middlewares_file_basename : String
  tail_middlewares_file_basename : String
  settings_file_basename : String
  custom_server_basename : String
  settings_export_name : String
  middlewares_export_name : String
  tail_middlewares_export_name : String
  deriving DecidableEq

/-- The fixed built-in server template (main.rs:14). -/
def SERVER_TEMPLATE : String :=
  "import express from \"express\";\n/* __nextExpress_imports__ */\n\nexport const createServer = () => \x7b\n  const app = express();\n\n  /* __nextExpress_settings__ */\n\n  /* __nextExpress_topLevelMiddlewares__ */\n\n  /* __nextExpress_routes__ */\n\n  /* __nextExpress_tailMiddlewares__ */\n  return app;\n\x7d;\n"

/-- Embeds `Convention::default` (main.rs:80). -/
def Convention.default : Convention where
  server_template := SERVER_TEMPLATE
  app_dir_name := "app"
  support_ext := [".ts", ".js"]
  route_file_basename := "route"
  middlewares_file_basename := "middlewares"
  tail_middlewares_file_basename := "tail-middlewares"
  settings_file_basename := "settings"
  custom_server_basename := "custom-server"
  settings_export_name := "settings"
  middlewares_export_name := "middlewares"
  tail_middlewares_export_name := "middlewares"

/-- Embeds `Convention::get_filenames` (main.rs:98): a basename crossed with
every supported extension. -/
def Convention.get_filenames (c : Convention) (basename : String) : List String :=
  c.support_ext.map (fun ext => basename ++ ext)

/-- Embeds `Convention::get_middlewares_filenames` (main.rs:105). -/
def Convention.get_middlewares_filenames (c : Convention) : List String :=
  c.get_filenames c.middlewares_file_basename

/-- Embeds `Convention::get_tail_middlewares_filenames` (main.rs:109). -/
def Convention.get_tail_middlewares_filenames (c : Convention) : List String :=
  c.get_filenames c.tail_middlewares_file_basename

/-- Embeds `Convention::get_settings_filenames` (main.rs:113). -/
def Convention.get_settings_filenames (c : Convention) : List String :=
  c.get_filenames c.settings_file_basename

/-- Embeds `Convention::get_route_filenames` (main.rs:117). -/
def Convention.get_route_filenames (c : Convention) : List String :=
  c.get_filenames c.route_file_basename

/-- Embeds `struct Config` (main.rs:126). -/
structure Config where
  method_not_allowed_res : String
  deriving DecidableEq

/-- Embeds `Config::default` (main.rs:132). -/
def Config.default : Config where
  method_not_allowed_res := "res.status(405).send(`Method $\x7breq.method\x7d Not Allowed`);"

/-- The error kinds with which the run can abort; each carries the
offending path or name exactly as the `anyhow!` messages in main.rs do. -/
inductive CompileError where
  /-- Message "Virtual group should not be used as a route name" (main.rs:209). -/
  | invalidRouteName (name : String)
  /-- Message "Invalid route path: \x7bpath\x7d" (main.rs:405). -/
  | invalidRoutePath (path : String)
  /-- Message "No valid endpoint handlers found in \x7bpath\x7d" (main.rs:570). -/
  | emptyHandlerSet (path : String)
  /-- Message "Failed to get endpoint handlers for \x7bpath\x7d: \x7bmsg\x7d" (main.rs:578). -/
  | scanFailure (path : String) (msg : String)
  deriving DecidableEq

/-! ## Identifier allocation (main.rs:206–222) -/

/-- Embeds `route_name_to_identifier` (main.rs:206): trim, replace `-` by `_`,
and reject virtual-group names (wrapped in parentheses). -/
def route_name_to_identifier (name : String) : Except CompileError String :=
  let name := String.mk (replaceChar '-' '_' (rustTrim name).data)
  if name.data.head? = some '(' ∧ name.data.getLast? = some ')' then
    .error (.invalidRouteName name)
  else
    .ok name

/-- Embeds `unique_route_handler_alias` (main.rs:214): the node's
`relative_path` with `/`, `.` and `-` mapped to `_` and parentheses
deleted. -/
def unique_route_handler_alias (relative_path : String) : String :=
  String.mk (removeChar ')' (removeChar '(' (replaceChar '-' '_'
    (replaceChar '.' '_' (replaceChar '/' '_' relative_path.data)))))

/-- The import alias allocated for one handler (main.rs:588):
`format!("\x7b\x7d_\x7b\x7d", unique_route_handler_alias(app_route), handler.export_name)`. -/
def handler_alias (relative_path export_name : String) : String :=
  unique_route_handler_alias relative_path ++ "_" ++ export_name

/-! ## Endpoint-path arithmetic (main.rs:403–425) -/

/-- Embeds `rel_path_to_endpoint` (main.rs:403): reject paths that do not start
with `app/` or do not end with the hard-coded `route.ts`; then drop the
`app/` head, split the rest on `/`, and emit per segment: nothing for a
virtual group (wrapped in parentheses), a bare `/` for the trailing
`route.ts`, and `/` followed by the segment text otherwise. -/
def rel_path_to_endpoint (rel_path : String) : Except CompileError String :=
  if ¬ ((str "app/").isPrefixOf rel_path.data) ∨ ¬ (endsWithList (str "route.ts") rel_path.data) then
    .error (.invalidRoutePath rel_path)
  else
    let rel_path_without_app := rel_path.data.drop (str "app/").length
    let segments := splitOnChar '/' rel_path_without_app
    .ok (String.mk (segments.flatMap (fun segment =>
      if segment.head? = some '(' ∧ segment.getLast? = some ')' then []
      else if segment = str "route.ts" then ['/']
      else '/' :: segment)))

/-! ## The export scanner (main.rs:146–204, 427–464)

The swc AST shapes the visitor inspects, restricted to the
distinctions `ExportVisitor` actually makes: whether an expression is
an arrow function / function expression (and its `is_async` flag),
whether a binding pattern is a plain identifier, and which kind a
top-level declaration is.  `ModuleItem.exportDefaultDecl` stands for
`export default function …` declarations, for which the visitor
overrides nothing, so they contribute no handler. -/

/-- An swc expression, as far as the visitor discriminates it. -/
inductive SwcExpr where
  /-- Embeds `Expr::Arrow` with its `is_async` flag. -/
  | arrow (is_async : Bool)
  /-- Embeds `Expr::Fn` with its function's `is_async` flag. -/
  | fnExpr (is_async : Bool)
  /-- Any other expression (literal, object, call, …). -/
  | otherExpr
  deriving DecidableEq

/-- An swc binding pattern: a plain identifier or anything else. -/
inductive SwcPat where
  | ident (name : String)
  | otherPat
  deriving DecidableEq

/-- One declarator of a `var`/`const` declaration: its pattern and its
optional initializer. -/
structure SwcVarDeclarator where
  name : SwcPat
  init : Option SwcExpr
  deriving DecidableEq

/-- A top-level declaration, as far as the visitor discriminates it. -/
inductive SwcDecl where
  /-- Embeds `Decl::Fn`: a named function declaration with its `is_async` flag. -/
  | fnDecl (name : String) (is_async : Bool)
  /-- Embeds `Decl::Var`: a list of declarators. -/
  | varDecl (decls : List SwcVarDeclarator)
  /-- Classes, interfaces, type aliases, …. -/
  | otherDecl
  deriving DecidableEq

/-- The default-export declaration forms (`export default function f()`,
`export default class C`, …); `ExportVisitor` overrides no method for
these nodes. -/
inductive SwcDefaultDecl where
  | fnDecl (is_async : Bool)
  | otherDefault
  deriving DecidableEq

/-- A top-level module item, as far as the visitor discriminates it. -/
inductive SwcModuleItem where
  /-- Embeds `export <decl>` — triggers `visit_export_decl`. -/
  | exportDecl (decl : SwcDecl)
  /-- Embeds `export default <expr>` — triggers `visit_export_default_expr`. -/
  | exportDefaultExpr (expr : SwcExpr)
  /-- Embeds `export default function/class …` — no overridden visitor method. -/
  | exportDefaultDecl (decl : SwcDefaultDecl)
  /-- Imports, plain statements, non-exported declarations, …. -/
  | otherItem
  deriving DecidableEq

/-- Embeds `ExportVisitor::visit_export_decl` (main.rs:159): a named function
export yields one handler; a variable export yields one handler per
identifier-pattern declarator, deferred exactly when its initializer is
an async arrow. -/
def visit_export_decl (d : SwcDecl) : List EndpointHandler :=
  match d with
  | .fnDecl name is_async => [⟨name, is_async⟩]
  | .varDecl decls =>
    decls.flatMap (fun decl =>
      match decl.name with
      | .ident name =>
        let is_async :=
          match decl.init with
          | some (.arrow a) => a
          | some _ => false
          | none => false
        [⟨name, is_async⟩]
      | .otherPat => [])
  | .otherDecl => []

/-- Embeds `ExportVisitor::visit_export_default_expr` (main.rs:192): every
default-exported expression yields the handler named `default`,
deferred when the expression is an async arrow or async function
expression. -/
def visit_export_default_expr (e : SwcExpr) : EndpointHandler :=
  ⟨"default",
    match e with
    | .arrow a => a
    | .fnExpr a => a
    | .otherExpr => false⟩

/-- Embeds `get_endpoint_handlers` (main.rs:427) after a successful parse: the
visitor walks the module items in order and collects handlers from the
two overridden methods. -/
def get_endpoint_handlers (items : List SwcModuleItem) : List EndpointHandler :=
  items.flatMap (fun item =>
    match item with
    | .exportDecl d => visit_export_decl d
    | .exportDefaultExpr e => [visit_export_default_expr e]
    | .exportDefaultDecl _ => []
    | .otherItem => [])

/-! ## Sorting (main.rs:759–769) -/

/-- Stable insertion step for `insertion_sort`. -/
def ordered_insert {α : Type} (le : α → α → Bool) (a : α) : List α → List α
  | [] => [a]
  | b :: l => if le a b then a :: b :: l else b :: ordered_insert le a l

/-- Stable ascending sort; realizes Rust's stable `slice::sort_by`
(for a total comparator the stable ascending reordering is unique, so
any stable sort computes the same list). -/
def insertion_sort {α : Type} (le : α → α → Bool) : List α → List α
  | [] => []
  | a :: l => ordered_insert le a (insertion_sort le l)

/-- The comparator of `sort_app_route` (main.rs:762):
`a.name.to_lowercase().cmp(&b.name.to_lowercase())`. -/
def name_le (a b : AppRoute) : Bool :=
  charListLe (rustToLowercase a.name).data (rustToLowercase b.name).data

/-- Embeds `sort_app_route` (main.rs:760): sort the children case-insensitively
by name; recurse into them only when there are at least two. -/
def sort_app_route (t : AppRoute) : AppRoute :=
  match t with
  | .mk n rp r m cs sr =>
    let sorted := insertion_sort name_le cs
    if sorted.length > 1 then
      .mk n rp r m (sorted.attach.map (fun c => sort_app_route c.1)) sr
    else
      .mk n rp r m sorted sr
termination_by sizeOf t
decreasing_by
  simp_wf
  rename_i rp2 r2 m2 cs2 sr2 _hlen
  have hoi : ∀ (x a : AppRoute) (l : List AppRoute),
      x ∈ ordered_insert name_le a l → x = a ∨ x ∈ l := by
    intro x a l
    induction l with
    | nil => simp [ordered_insert]
    | cons b l ih =>
      by_cases h : name_le a b
      · simp [ordered_insert, h]
      · simp only [ordered_insert, h, if_neg, Bool.false_eq_true]
        intro hx
        rcases List.mem_cons.mp hx with h1 | h1
        · right; simp [h1]
        · rcases ih h1 with h2 | h2
          · left; exact h2
          · right; exact List.mem_cons_of_mem _ h2
  have his : ∀ (x : AppRoute) (l : List AppRoute),
      x ∈ insertion_sort name_le l → x ∈ l := by
    intro x l
    induction l with
    | nil => simp [insertion_sort]
    | cons a l ih =>
      intro hx
      simp only [insertion_sort] at hx
      rcases hoi x a _ hx with h1 | h1
      · simp [h1]
      · exact List.mem_cons_of_mem _ (ih h1)
  have h2 : c.1 ∈ cs2 := his c.1 cs2 c.2
  have h3 := List.sizeOf_lt_of_mem h2
  omega

/-! ## Mount-path arithmetic inside `compile_route` (main.rs:489–556) -/

/-- The node's absolute mount path from the app root (main.rs:493):
`format!("/\x7b\x7d", relative_path.strip_prefix("app/").unwrap_or(relative_path))`. -/
def full_router_path (relative_path : String) : String :=
  "/" ++ String.mk (stripPrefixOrSelf (str "app/") relative_path.data)

/-- The mount path declared on the nearest enclosing router
(main.rs:501): with an enclosing sub-router the code computes
`full_router_path.replace(&sub_router.path, "")`, i.e. it deletes every
occurrence of the ancestor's absolute mount path, not only a leading
one. -/
def group_route_path (nearest_sub_router : Option SubRouter) (relative_path : String) : String :=
  match nearest_sub_router with
  | some sub_router =>
    String.mk (removeAll sub_router.path.data (full_router_path relative_path).data)
  | none => full_router_path relative_path

/-- Embeds `.replace(".ts", "").replace(".js", "")` applied to a filename
before it is used in an import specifier (main.rs:519, 603, 656). -/
def strip_ext (filename : String) : String :=
  String.mk (removeAll (str ".js") (removeAll (str ".ts") filename.data))

/-! ## Code emission inside `compile_route` (main.rs:586–621) -/

/-- One branch of the generated method dispatch (main.rs:606):
`if (req.method === "<NAME upper-cased>") \x7b <await?> <alias>(req, res); return; \x7d`. -/
def handler_branch (handler_alias_name : String) (handler : EndpointHandler) : String :=
  "if (req.method === \"" ++ rustToUppercase handler.export_name ++ "\") \x7b "
    ++ (if handler.is_async then "await " else "")
    ++ handler_alias_name ++ "(req, res); return; \x7d\n"

/-- The single combined registration emitted for a route file
(main.rs:617): `<router>.all("<uri>", async (req, res) => \x7b <inner>
<method_not_allowed_res> \x7d);`. -/
def endpoint_registration (router endpoint_uri inner : String) (config : Config) : String :=
  router ++ ".all(\"" ++ endpoint_uri ++ "\", async (req, res) => \x7b "
    ++ inner ++ " " ++ config.method_not_allowed_res ++ " \x7d);\n"

/-- One handler's import line (main.rs:593). -/
def handler_import (handler : EndpointHandler) (handler_alias_name dist_to_src_relpath
    relative_path route : String) : String :=
  "import \x7b " ++ handler.export_name ++ " as " ++ handler_alias_name ++ " \x7d from \""
    ++ dist_to_src_relpath ++ "/" ++ relative_path ++ "/" ++ strip_ext route ++ "\";\n"

/-- The evaluation of the emitted dispatch chain: the generated branches
test `req.method` against the upper-cased export names in declaration
order, the first hit invokes that handler and returns, and when no
branch hits, control falls through to the configured method-not-allowed
response (modelled as `none`). -/
def dispatch (handlers : List EndpointHandler) (method : String) : Option EndpointHandler :=
  handlers.find? (fun h => rustToUppercase h.export_name = method)

/-- Embeds `compile_route` (main.rs:466): compile one node.  `scan` stands for
`get_endpoint_handlers` on the file at the given absolute path (an
`Except String` because a parse failure carries a message); the
function returns the grown `imports` and `routes` fragments together
with the `sub_router` value stored on the node (some exactly when the
node owns middleware). -/
def compile_route
    (scan : String → Except String (List EndpointHandler))
    (imports routes : String)
    (src_dir dist_to_src_relpath : String)
    (nearest_sub_router : Option SubRouter)
    (convention : Convention) (config : Config)
    (app_route : AppRoute) :
    Except CompileError (String × String × Option SubRouter) :=
  let routes := routes ++ "// ===== routes [" ++ app_route.name ++ " | "
    ++ app_route.relative_path ++ "] =====\n"
  let middleware_step : Except CompileError (String × String × Option SubRouter) :=
    match app_route.middlewares with
    | some middlewares =>
      match route_name_to_identifier app_route.name with
      | .error e => .error e
      | .ok route_identifier =>
        let route_middlewares_alias := route_identifier ++ "Middlewares"
        let imports := imports ++ "import \x7b " ++ convention.middlewares_export_name
          ++ " as " ++ route_middlewares_alias ++ " \x7d from \"" ++ dist_to_src_relpath
          ++ "/" ++ app_route.relative_path ++ "/" ++ strip_ext middlewares ++ "\";\n"
        let group_router_identifier := route_identifier ++ "Router"
        let sub_router : SubRouter := ⟨group_router_identifier, full_router_path app_route.relative_path⟩
        let parent_router := (nearest_sub_router.map SubRouter.identifier).getD "app"
        let routes := routes ++ "const " ++ group_router_identifier ++ " = express.Router();\n"
        let routes := routes ++ parent_router ++ ".use(\""
          ++ group_route_path nearest_sub_router app_route.relative_path ++ "\", "
          ++ group_router_identifier ++ ");\n"
        let routes := routes ++ group_router_identifier ++ ".use(..." ++ route_middlewares_alias ++ ");\n"
        .ok (imports, routes, some sub_router)
    | none => .ok (imports, routes, none)
  match middleware_step with
  | .error e => .error e
  | .ok (imports, routes, new_sub_router) =>
    let current_nearest_sub_router := new_sub_router.or nearest_sub_router
    match app_route.route with
    | none => .ok (imports, routes ++ "\n", new_sub_router)
    | some route =>
      match rel_path_to_endpoint (app_route.relative_path ++ "/" ++ route) with
      | .error e => .error e
      | .ok uri =>
        let endpoint_uri :=
          match current_nearest_sub_router with
          | some sub_router => String.mk (removeAll sub_router.path.data uri.data)
          | none => uri
        let route_abs_path := src_dir ++ "/" ++ app_route.relative_path ++ "/" ++ route
        match scan route_abs_path with
        | .error e => .error (.scanFailure route_abs_path e)
        | .ok handlers =>
          if handlers.isEmpty then
            .error (.emptyHandlerSet route_abs_path)
          else
            let folded := handlers.foldl
              (fun (acc : String × String) handler =>
                let alias_name := handler_alias app_route.relative_path handler.export_name
                (acc.1 ++ handler_import handler alias_name dist_to_src_relpath
                    app_route.relative_path route,
                 acc.2 ++ handler_branch alias_name handler))
              (imports, "")
            let router := (current_nearest_sub_router.map SubRouter.identifier).getD "app"
            let endpoint_handler :=
              endpoint_registration router endpoint_uri folded.2 config
            .ok (folded.1, routes ++ endpoint_handler ++ "\n", new_sub_router)

/-- Embeds `traverse_route` (main.rs:689): depth-first, root-first traversal;
`compile_route` runs on a node exactly when it owns a route or
middleware file, and the children inherit the node's own sub-router
when one was created, the enclosing one otherwise. -/
def traverse_route
    (scan : String → Except String (List EndpointHandler))
    (src_dir dist_to_src_relpath : String)
    (convention : Convention) (config : Config)
    (t : AppRoute) (nearest_sub_router : Option SubRouter)
    (imports routes : String) :
    Except CompileError (String × String) :=
  match
      (if t.route.isSome || t.middlewares.isSome then
        compile_route scan imports routes src_dir dist_to_src_relpath
          nearest_sub_router convention config t
      else
        .ok (imports, routes, none)) with
  | .error e => .error e
  | .ok (imports', routes', new_sub_router) =>
    let current_sub_router := new_sub_router.or nearest_sub_router
    t.children.attach.foldlM
      (fun (acc : String × String) c =>
        traverse_route scan src_dir dist_to_src_relpath convention config
          c.1 current_sub_router acc.1 acc.2)
      (imports', routes')
termination_by sizeOf t
decreasing_by
  have h2 := List.sizeOf_lt_of_mem c.2
  have h3 : sizeOf t.children < sizeOf t := by
    cases t
    simp [AppRoute.children]
    omega
  omega

/-- Embeds `struct AppStruct` (main.rs:49): the built route tree plus the
top-level file references recorded during the walk. -/
structure AppStruct where
  src_dir : String
  dist_to_src_relpath : String
  app : AppRoute
  top_level_middlewares : Option String
  tail_middlewares : Option String
  settings : Option String

/-- Embeds `struct CompiledAppStruct` (main.rs:628): the five accumulated
fragments. -/
structure CompiledAppStruct where
  imports : String
  settings : String
  top_level_middlewares : String
  routes : String
  tail_middlewares : String
  deriving DecidableEq

/-- The settings block of `compile_app_struct` (main.rs:650): the
import-specifier line appended to `imports` and the loop appended to
`settings` when a settings file was recorded. -/
def settings_fragment (dist_to_src_relpath : String) (convention : Convention) :
    Option String → String × String
  | some settings_file =>
    ("import \x7b " ++ convention.settings_export_name ++ " as appSettings \x7d from \""
       ++ dist_to_src_relpath ++ "/" ++ strip_ext settings_file ++ "\";\n",
     "for (const setting of appSettings) \x7b\n      app.set(setting.name, setting.value);\n    \x7d\n")
  | none => ("", "")

/-- The top-level-middlewares block of `compile_app_struct`
(main.rs:661). -/
def top_level_middlewares_fragment (dist_to_src_relpath : String) (convention : Convention) :
    Option String → String × String
  | some middlewares_file =>
    ("import \x7b " ++ convention.middlewares_export_name
       ++ " as topLevelMiddlewares \x7d from \"" ++ dist_to_src_relpath ++ "/"
       ++ strip_ext middlewares_file ++ "\";\n",
     "app.use(...topLevelMiddlewares);\n")
  | none => ("", "")

/-- The tail-middlewares block of `compile_app_struct` (main.rs:675). -/
def tail_middlewares_fragment (dist_to_src_relpath : String) (convention : Convention) :
    Option String → String × String
  | some tail_middlewares_file =>
    ("import \x7b " ++ convention.tail_middlewares_export_name
       ++ " as tailMiddlewares \x7d from \"" ++ dist_to_src_relpath ++ "/"
       ++ strip_ext tail_middlewares_file ++ "\";\n",
     "app.use(...tailMiddlewares);\n")
  | none => ("", "")

/-- Embeds `compile_app_struct` (main.rs:637): append the settings, top-level
middleware and tail middleware imports and activations in that order
(each block appends to the growing `imports`, so the import block is
their concatenation), then traverse the route tree from the root with
no enclosing sub-router. -/
def compile_app_struct
    (scan : String → Except String (List EndpointHandler))
    (app_struct : AppStruct) (convention : Convention) (config : Config) :
    Except CompileError CompiledAppStruct :=
  let sf := settings_fragment app_struct.dist_to_src_relpath convention app_struct.settings
  let tf := top_level_middlewares_fragment app_struct.dist_to_src_relpath convention
    app_struct.top_level_middlewares
  let tlf := tail_middlewares_fragment app_struct.dist_to_src_relpath convention
    app_struct.tail_middlewares
  match traverse_route scan app_struct.src_dir app_struct.dist_to_src_relpath
      convention config app_struct.app none (sf.1 ++ tf.1 ++ tlf.1) "" with
  | .error e => .error e
  | .ok (imports, routes) =>
    .ok ⟨imports, sf.2, tf.2, routes, tlf.2⟩

/-- The five marker substitutions of `compile` (main.rs:824). -/
def assemble (template : String) (t : CompiledAppStruct) : String :=
  String.mk (replaceAllSub (str "/* __nextExpress_tailMiddlewares__ */") t.tail_middlewares.data
    (replaceAllSub (str "/* __nextExpress_routes__ */") t.routes.data
      (replaceAllSub (str "/* __nextExpress_topLevelMiddlewares__ */") t.top_level_middlewares.data
        (replaceAllSub (str "/* __nextExpress_settings__ */") t.settings.data
          (replaceAllSub (str "/* __nextExpress_imports__ */") t.imports.data template.data)))))

/-- The compilation pipeline of `compile` (main.rs:771) from the built
`AppStruct` on: sort the tree, compile it, and only on success
substitute the fragments into the template — the `.ok` payload is the
content that `fs::write` then writes as the single output file, so an
`.error` run writes nothing.  (Directory walking, custom-template
loading and the filesystem writes themselves are the out-of-scope I/O
collaborators.) -/
def compile
    (scan : String → Except String (List EndpointHandler))
    (app_struct : AppStruct) (convention : Convention) (config : Config) :
    Except CompileError String :=
  let sorted_struct := { app_struct with app := sort_app_route app_struct.app }
  match compile_app_struct scan sorted_struct convention config with
  | .error e => .error e
  | .ok transformed => .ok (assemble convention.server_template transformed)

/-! ## Top-level file recording inside `get_app_struct` (main.rs:331–348)

For each of the three top-level roles the walk does, per file in
traversal order: `if names.contains(&relative_path_str) \x7b field =
Some(relative_path_str) \x7d` — an unconditional overwrite. -/

/-- The recording fold of `get_app_struct` for one role: `names` is the
role's configured filename set and `files` the relative paths of the
walked files in traversal order. -/
def record_top_level (names : List String) (files : List String) : Option String :=
  files.foldl (fun acc f => if names.contains f then some f else acc) none

/-- The node containment relation on the route tree: `SubNode n t` holds
when `n` is `t` itself or a node of a subtree of `t`. -/
inductive SubNode : AppRoute → AppRoute → Prop where
  | refl (t : AppRoute) : SubNode t t
  | child {n c t : AppRoute} : c ∈ t.children → SubNode n c → SubNode n t

/-! ## Spec-side comparison definitions -/

/-- Modelled from the spec: "Compute its declared mount path relative to
the nearest enclosing sub-router by stripping that ancestor's absolute
mount path prefix" — i.e. the ancestor's absolute mount path is removed
only as a leading prefix, and interior occurrences are left intact. -/
def declared_path_per_spec (ancestor_path full_path : String) : String :=
  String.mk (stripPrefixOrSelf ancestor_path.data full_path.data)

/-- The deferredness the visitor records for an exported binding
(true exactly for an async arrow initializer; an async function
expression or any other initializer is recorded non-deferred). -/
def binding_init_deferred : Option SwcExpr → Bool
  | some (.arrow a) => a
  | some (.fnExpr _) => false
  | some .otherExpr => false
  | none => false

/-- The deferredness the visitor records for a default-exported
expression (arrow or function-expression asyncness, false otherwise). -/
def default_expr_deferred : SwcExpr → Bool
  | .arrow a => a
  | .fnExpr a => a
  | .otherExpr => false

/-- The amended scanner contract, written out clause by clause: an
exported named function is recorded with its asyncness; every exported
identifier binding is recorded whether or not its initializer is a
function, deferred exactly for an async arrow initializer; every
default-exported expression is recorded under the literal name
`default` whether or not it is a function; a default export
declaration (`export default function …`) is not recorded at all; all
other items contribute nothing; declaration order is preserved. -/
def scanner_handlers_amended : List SwcModuleItem → List EndpointHandler
  | [] => []
  | .exportDecl (.fnDecl n a) :: rest =>
    ⟨n, a⟩ :: scanner_handlers_amended rest
  | .exportDecl (.varDecl ds) :: rest =>
    (ds.flatMap fun d =>
      match d.name with
      | .ident n => [⟨n, binding_init_deferred d.init⟩]
      | .otherPat => []) ++ scanner_handlers_amended rest
  | .exportDecl .otherDecl :: rest => scanner_handlers_amended rest
  | .exportDefaultExpr e :: rest =>
    ⟨"default", default_expr_deferred e⟩ :: scanner_handlers_amended rest
  | .exportDefaultDecl _ :: rest => scanner_handlers_amended rest
  | .otherItem :: rest => scanner_handlers_amended rest

/-- The standard HTTP request methods (RFC 9110 plus PATCH). -/
def standardHttpMethods : List String :=
  ["GET", "HEAD", "POST", "PUT", "DELETE", "CONNECT", "OPTIONS", "TRACE", "PATCH"]

/-- Embeds `/`-join of path segments (for stating the endpoint-path theorem). -/
def joinSlash : List (List Char) → List Char
  | [] => []
  | [s] => s
  | s :: rest => s ++ '/' :: joinSlash rest

/-- A scan environment in which every route module parses but exports
nothing. -/
def scan_empty : String → Except String (List EndpointHandler) := fun _ => .ok []

/-- Fixture for the sorting claim: a root whose single child has
children named `b`, `a` — in unsorted order. -/
def c4_example_tree : AppRoute :=
  .mk "app" "app" none none
    [.mk "x" "app/x" none none
      [.mk "b" "app/x/b" (some "route.ts") none [] none,
       .mk "a" "app/x/a" (some "route.ts") none [] none] none] none

/-- Fixture for the empty-handler claim: a tree whose root owns a route
file and nothing else. -/
def c9_example_struct : AppStruct where
  src_dir := "src"
  dist_to_src_relpath := ".."
  app := .mk "app" "app" (some "route.ts") none [] none
  top_level_middlewares := none
  tail_middlewares := none
  settings := none

/-! ## Claim theorems -/

/-- C1: the claim says the ancestor sub-router's absolute mount path is
removed only as a leading prefix when computing a declared path, with
interior occurrences left intact.  The code instead uses
`str::replace`, which removes every occurrence: for a node at
`app/a/x/a` under an ancestor sub-router mounted at `/a`, the emitted
declared mount path is `/x`, while the spec's leading-prefix strip
yields `/x/a`. -/
theorem C1_declared_mount_path_removes_interior :
    group_route_path (some ⟨"aRouter", "/a"⟩) "app/a/x/a" = "/x"
    ∧ declared_path_per_spec "/a" (full_router_path "app/a/x/a") = "/x/a"
    ∧ ("/x" : String) ≠ "/x/a" := by
  refine ⟨rfl, rfl, by decide⟩

/-- C2: the claim says a route file is compiled to its endpoint
regardless of which configured extension it uses.  The tree builder
indeed accepts `route.js` (it is a configured route filename), but
`rel_path_to_endpoint` hard-codes the `route.ts` suffix, so compiling a
node whose route file is `route.js` aborts with the invalid-route-path
error rather than producing the `/foo/` endpoint that `route.ts`
produces. -/
theorem C2_route_js_aborts :
    "route.js" ∈ Convention.default.get_route_filenames
    ∧ rel_path_to_endpoint "app/foo/route.ts" = .ok "/foo/"
    ∧ rel_path_to_endpoint "app/foo/route.js" = .error (.invalidRoutePath "app/foo/route.js")
    ∧ compile_route (fun _ => .ok [⟨"get", false⟩]) "" "" "src" ".." none
        Convention.default Config.default (.mk "foo" "app/foo" (some "route.js") none [] none)
      = .error (.invalidRoutePath "app/foo/route.js") := by
  refine ⟨by decide, rfl, rfl, rfl⟩

/-- C3 counterexample: alias allocation is not injective on
(relative path, exported name) pairs — the nodes `app/a/b` and
`app/a.b` are distinct but their `get` handlers receive the same
alias, because `/` and `.` are both normalized to `_`. -/
theorem C3_alias_collision :
    handler_alias "app/a/b" "get" = handler_alias "app/a.b" "get"
    ∧ ("app/a/b" : String) ≠ "app/a.b" := by
  refine ⟨rfl, by decide⟩

/-- C5 counterexample: with both `settings.ts` and `settings.js`
present, the recorded top-level reference is the last match in
traversal order (each match overwrites the field), not the first match
as claimed. -/
theorem C5_first_match_does_not_win :
    record_top_level Convention.default.get_settings_filenames ["settings.ts", "settings.js"]
      = some "settings.js"
    ∧ List.find? (fun f => Convention.default.get_settings_filenames.contains f)
        ["settings.ts", "settings.js"] = some "settings.ts"
    ∧ some "settings.js" ≠ some "settings.ts" := by
  refine ⟨rfl, rfl, by decide⟩

/-- C6 counterexample: an exported binding whose initializer is not a
function (`export const x = 42`) does appear in the scanner result, and
a default function declaration (`export default function`) is not
reported at all — so the result for a module containing exactly those
two items is `[⟨x, false⟩]`, not `[]`, and contains no handler named
`default`. -/
theorem C6_scanner_shape_counterexample :
    get_endpoint_handlers
        [.exportDecl (.varDecl [⟨.ident "x", some .otherExpr⟩]),
         .exportDefaultDecl (.fnDecl true)]
      = [⟨"x", false⟩]
    ∧ ([⟨"x", false⟩] : List EndpointHandler) ≠ []
    ∧ (([⟨"x", false⟩] : List EndpointHandler).all (fun h => h.export_name ≠ "default")) = true := by
  refine ⟨rfl, by decide, by decide⟩

/-- C7 counterexample: for directory `users` directly under the routing
root, the generated endpoint is `/users/` — the trailing route-file
segment contributes a trailing separator — not exactly `"/" ++ name`
as claimed. -/
theorem C7_trailing_separator :
    rel_path_to_endpoint "app/users/route.ts" = .ok "/users/"
    ∧ ("/users/" : String) ≠ "/users" := by
  refine ⟨rfl, by decide⟩

/-- C10: a handler named `default` (a default export) is dispatched by
comparing `req.method` against the upper-cased literal `DEFAULT`; no
standard HTTP method equals it, so requests with any standard method
fall through to the configured method-not-allowed response
(`dispatch` returns `none`), whatever the handler's deferredness. -/
theorem C10_default_branch_unreachable (a : Bool) :
    (visit_export_default_expr .otherExpr).export_name = "default"
    ∧ rustToUppercase "default" = "DEFAULT"
    ∧ handler_branch (handler_alias "app/foo" "default") ⟨"default", a⟩
      = "if (req.method === \"DEFAULT\") \x7b " ++ (if a then "await " else "")
        ++ "app_foo_default(req, res); return; \x7d\n"
    ∧ (standardHttpMethods.all (fun m => (dispatch [⟨"default", a⟩] m).isNone)) = true := by
  cases a <;> exact ⟨rfl, rfl, rfl, by decide⟩

/-- Helper: `find?` over an append takes the first hit. -/
theorem list_find_append {α : Type} (p : α → Bool) (l₁ l₂ : List α) :
    (l₁ ++ l₂).find? p = ((l₁.find? p).or (l₂.find? p)) := by
  induction l₁ with
  | nil => simp
  | cons a l ih =>
    by_cases h : p a <;> simp [List.find?_cons, h, ih]

/-- C5 amended: the recorded top-level reference for a role is the
*last* match in traversal order — every later matching file overwrites
the earlier recorded one (so with duplicate-extension collisions the
last match wins, not the first). -/
theorem C5_amended_last_match_wins (names files : List String) :
    record_top_level names files
      = files.reverse.find? (fun f => names.contains f) := by
  have aux : ∀ (fs : List String) (acc : Option String),
      fs.foldl (fun acc f => if names.contains f then some f else acc) acc
        = (fs.reverse.find? (fun f => names.contains f)).or acc := by
    intro fs
    induction fs with
    | nil => intro acc; simp
    | cons x xs ih =>
      intro acc
      simp only [List.foldl_cons, List.reverse_cons]
      rw [ih, list_find_append]
      rcases hfind : xs.reverse.find? (fun f => names.contains f) with _ | v
      · by_cases hx : x ∈ names <;> simp [List.find?, hx, Option.or]
      · simp [Option.or]
  simp only [record_top_level]
  rw [aux files none]
  rcases files.reverse.find? (fun f => names.contains f) with _ | v <;> rfl

/-- Helper: the visitor's variable-export clause, rewritten through
`binding_init_deferred`. -/
theorem visit_export_decl_varDecl_eq (ds : List SwcVarDeclarator) :
    visit_export_decl (.varDecl ds)
      = ds.flatMap (fun d =>
          match d.name with
          | .ident n => [⟨n, binding_init_deferred d.init⟩]
          | .otherPat => []) := by
  simp only [visit_export_decl]
  induction ds with
  | nil => rfl
  | cons d ds ih =>
    simp only [List.flatMap_cons, ih]
    congr 1
    rcases d with ⟨nm, init⟩
    cases nm
    · rcases init with _ | e
      · rfl
      · cases e <;> rfl
    · rfl

/-- Helper: unfolding the scanner over a leading module item. -/
theorem get_endpoint_handlers_cons (it : SwcModuleItem) (rest : List SwcModuleItem) :
    get_endpoint_handlers (it :: rest)
      = (match it with
          | .exportDecl d => visit_export_decl d
          | .exportDefaultExpr e => [visit_export_default_expr e]
          | .exportDefaultDecl _ => []
          | .otherItem => []) ++ get_endpoint_handlers rest := by
  simp only [get_endpoint_handlers, List.flatMap_cons]

/-- C6 amended: the scanner result is exactly, in declaration order:
every exported named function with its asyncness; every exported
identifier binding — function-valued or not — deferred exactly for an
async arrow initializer (an async function-expression initializer is
recorded non-deferred); every default-exported expression under the
literal name `default`, function or not; while `export default
function …` declarations and all remaining constructs contribute
nothing. -/
theorem C6_amended_scanner_contract (items : List SwcModuleItem) :
    get_endpoint_handlers items = scanner_handlers_amended items := by
  induction items with
  | nil => rfl
  | cons it rest ih =>
    rw [get_endpoint_handlers_cons]
    cases it with
    | exportDecl d =>
      cases d with
      | fnDecl n a => simp [scanner_handlers_amended, visit_export_decl, ih]
      | varDecl ds =>
        simp only []
        rw [visit_export_decl_varDecl_eq, ih]
        simp [scanner_handlers_amended]
      | otherDecl => simp [scanner_handlers_amended, visit_export_decl, ih]
    | exportDefaultExpr e =>
      cases e <;>
        simp [scanner_handlers_amended, visit_export_default_expr, default_expr_deferred, ih]
    | exportDefaultDecl d => simp [scanner_handlers_amended, ih]
    | otherItem => simp [scanner_handlers_amended, ih]

/-- Helper: `takeWhile (· ≠ sep)` of a list led by separator-free
characters recovers exactly that lead. -/
theorem takeWhile_append_sep (sep : Char) (l r : List Char) (hl : ∀ c ∈ l, c ≠ sep) :
    (l ++ sep :: r).takeWhile (fun c => decide (c ≠ sep)) = l := by
  induction l with
  | nil => simp
  | cons c l ih =>
    have hc : c ≠ sep := hl c (List.mem_cons_self c l)
    have ih2 := ih (fun x hx => hl x (List.mem_cons_of_mem c hx))
    simp only [List.cons_append, List.takeWhile_cons]
    simp [hc]
    simpa using ih2

/-- Helper: a list of the shape `l ++ sep :: r` with `l` separator-free
determines `l` and `r` uniquely. -/
theorem append_sep_inj (sep : Char) (l₁ l₂ r₁ r₂ : List Char)
    (h₁ : ∀ c ∈ l₁, c ≠ sep) (h₂ : ∀ c ∈ l₂, c ≠ sep)
    (he : l₁ ++ sep :: r₁ = l₂ ++ sep :: r₂) : l₁ = l₂ ∧ r₁ = r₂ := by
  have t₁ := takeWhile_append_sep sep l₁ r₁ h₁
  have t₂ := takeWhile_append_sep sep l₂ r₂ h₂
  rw [he] at t₁
  have hl : l₁ = l₂ := t₁.symm.trans t₂
  refine ⟨hl, ?_⟩
  subst hl
  have := List.append_cancel_left he
  exact (List.cons.injEq _ _ _ _).mp this |>.2

/-- Helper: on a path free of `.`, `-`, `(`, `)`, the alias
normalization only maps `/` to `_`. -/
theorem unique_route_handler_alias_clean (p : List Char)
    (hp : ∀ c ∈ p, c ≠ '.' ∧ c ≠ '-' ∧ c ≠ '(' ∧ c ≠ ')') :
    removeChar ')' (removeChar '(' (replaceChar '-' '_'
        (replaceChar '.' '_' (replaceChar '/' '_' p))))
      = p.map (fun c => if c = '/' then '_' else c) := by
  induction p with
  | nil => rfl
  | cons c p ih =>
    have hc := hp c (List.mem_cons_self c p)
    have ihp := ih (fun x hx => hp x (List.mem_cons_of_mem c hx))
    simp only [replaceChar, removeChar, List.map_cons, List.filter_cons] at *
    by_cases hcs : c = '/'
    · subst hcs
      simp only [if_pos rfl]
      simp_all [replaceChar, removeChar]
    · simp only [if_neg hcs]
      simp_all [replaceChar, removeChar, hc.1, hc.2.1, hc.2.2.1, hc.2.2.2]

/-- Helper: the character-list form of a handler alias on a clean path. -/
theorem handler_alias_data_clean (p n : String)
    (hp : ∀ c ∈ p.data, c ≠ '.' ∧ c ≠ '-' ∧ c ≠ '(' ∧ c ≠ ')') :
    (handler_alias p n).data
      = (p.data.map (fun c => if c = '/' then '_' else c)) ++ '_' :: n.data := by
  have h1 : (handler_alias p n).data
      = (unique_route_handler_alias p).data ++ '_' :: n.data := by
    simp [handler_alias, String.data_append, List.append_assoc]
  rw [h1]
  congr 1
  exact unique_route_handler_alias_clean p.data hp

/-- C3 amended: alias allocation is deterministic (a pure function of
the pair), and it is injective on the pairs that avoid the
normalization collisions: relative paths whose characters include none
of `.`, `-`, `_`, `(`, `)` and exported names containing no `_`.  In
general distinct pairs can collide (see the counterexample `app/a/b`
vs `app/a.b`). -/
theorem C3_amended_alias_injective_on_clean_inputs
    (p₁ p₂ n₁ n₂ : String)
    (hp₁ : ∀ c ∈ p₁.data, c ≠ '.' ∧ c ≠ '-' ∧ c ≠ '_' ∧ c ≠ '(' ∧ c ≠ ')')
    (hp₂ : ∀ c ∈ p₂.data, c ≠ '.' ∧ c ≠ '-' ∧ c ≠ '_' ∧ c ≠ '(' ∧ c ≠ ')')
    (hn₁ : ∀ c ∈ n₁.data, c ≠ '_') (hn₂ : ∀ c ∈ n₂.data, c ≠ '_')
    (heq : handler_alias p₁ n₁ = handler_alias p₂ n₂) :
    p₁ = p₂ ∧ n₁ = n₂ := by
  have hdata : (handler_alias p₁ n₁).data = (handler_alias p₂ n₂).data := by rw [heq]
  rw [handler_alias_data_clean p₁ n₁
      (fun c hc => ⟨(hp₁ c hc).1, (hp₁ c hc).2.1, (hp₁ c hc).2.2.2.1, (hp₁ c hc).2.2.2.2⟩),
    handler_alias_data_clean p₂ n₂
      (fun c hc => ⟨(hp₂ c hc).1, (hp₂ c hc).2.1, (hp₂ c hc).2.2.2.1, (hp₂ c hc).2.2.2.2⟩)]
    at hdata
  have hrev : n₁.data.reverse ++ '_' :: (p₁.data.map (fun c => if c = '/' then '_' else c)).reverse
      = n₂.data.reverse ++ '_' :: (p₂.data.map (fun c => if c = '/' then '_' else c)).reverse := by
    have := congrArg List.reverse hdata
    simpa [List.reverse_append] using this
  have hsep := append_sep_inj '_' n₁.data.reverse n₂.data.reverse _ _
    (fun c hc => hn₁ c (List.mem_reverse.mp hc))
    (fun c hc => hn₂ c (List.mem_reverse.mp hc)) hrev
  have hn : n₁ = n₂ := String.ext (List.reverse_injective hsep.1)
  have hpmap : p₁.data.map (fun c => if c = '/' then '_' else c)
      = p₂.data.map (fun c => if c = '/' then '_' else c) :=
    List.reverse_injective hsep.2
  have hback : ∀ (p : String), (∀ c ∈ p.data, c ≠ '_') →
      (p.data.map (fun c => if c = '/' then '_' else c)).map
        (fun c => if c = '_' then '/' else c) = p.data := by
    intro p hfree
    rw [List.map_map]
    have hcong : ∀ c ∈ p.data, ((fun c => if c = '_' then '/' else c) ∘
        (fun c => if c = '/' then '_' else c)) c = id c := by
      intro c hc
      by_cases hcs : c = '/'
      · simp [hcs]
      · simp [Function.comp, hcs, if_neg (hfree c hc)]
    rw [List.map_congr_left hcong, List.map_id]
  have hp : p₁ = p₂ := by
    have b₁ := hback p₁ (fun c hc => (hp₁ c hc).2.2.1)
    have b₂ := hback p₂ (fun c hc => (hp₂ c hc).2.2.1)
    apply String.ext
    rw [← b₁, ← b₂, hpmap]
  exact ⟨hp, hn⟩

/-- C3 amended, witness: the hypotheses are satisfiable — the theorem
applied at the clean pair (`app/x`, `get`) against itself. -/
theorem C3_amended_witness : ("app/x" : String) = "app/x" ∧ ("get" : String) = "get" :=
  C3_amended_alias_injective_on_clean_inputs "app/x" "app/x" "get" "get"
    (by decide) (by decide) (by decide) (by decide) rfl

/-- Helper: splitting never yields the empty list of segments. -/
theorem splitOnChar_ne_nil (sep : Char) : ∀ l : List Char, splitOnChar sep l ≠ [] := by
  intro l
  cases l with
  | nil => simp [splitOnChar]
  | cons c cs =>
    simp only [splitOnChar]
    rcases h : splitOnChar sep cs with _ | ⟨s, ss⟩
    · simp
    · by_cases hc : c = sep <;> simp [hc]

/-- Helper: a separator-free list splits into itself alone. -/
theorem splitOnChar_no_sep (sep : Char) : ∀ s : List Char, sep ∉ s → splitOnChar sep s = [s] := by
  intro s
  induction s with
  | nil => intro _; rfl
  | cons c cs ih =>
    intro h
    have hc : c ≠ sep := fun hc => h (hc ▸ List.mem_cons_self c cs)
    have ih' := ih (fun hm => h (List.mem_cons_of_mem c hm))
    simp [splitOnChar, ih', hc]

/-- Helper: splitting a list led by a separator-free segment peels that
segment off. -/
theorem splitOnChar_append_sep (sep : Char) :
    ∀ s t : List Char, sep ∉ s →
      splitOnChar sep (s ++ sep :: t) = s :: splitOnChar sep t := by
  intro s
  induction s with
  | nil =>
    intro t _
    rcases h : splitOnChar sep t with _ | ⟨s0, ss0⟩
    · exact absurd h (splitOnChar_ne_nil sep t)
    · simp [splitOnChar, h]
  | cons c cs ih =>
    intro t h
    have hc : c ≠ sep := fun hc => h (hc ▸ List.mem_cons_self c cs)
    have ih' := ih t (fun hm => h (List.mem_cons_of_mem c hm))
    simp [splitOnChar, ih', hc]

/-- Helper: `joinSlash` over a leading segment with a non-empty rest. -/
theorem joinSlash_cons (s : List Char) (rest : List (List Char)) (h : rest ≠ []) :
    joinSlash (s :: rest) = s ++ '/' :: joinSlash rest := by
  cases rest with
  | nil => exact absurd rfl h
  | cons t ts => rfl

/-- Helper: a `/`-join ending in segment `r` ends in the text of `r`. -/
theorem joinSlash_ends : ∀ (ds : List (List Char)) (r : List Char),
    ∃ p, joinSlash (ds ++ [r]) = p ++ r := by
  intro ds
  induction ds with
  | nil => intro r; exact ⟨[], rfl⟩
  | cons d ds ih =>
    intro r
    obtain ⟨p, hp⟩ := ih r
    refine ⟨d ++ '/' :: p, ?_⟩
    rw [List.cons_append, joinSlash_cons d (ds ++ [r]) (by simp), hp]
    simp

/-- Helper: splitting recovers the segments of a `/`-join of
separator-free segments. -/
theorem splitOnChar_joinSlash : ∀ (segs : List (List Char)),
    (∀ s ∈ segs, '/' ∉ s) → segs ≠ [] →
    splitOnChar '/' (joinSlash segs) = segs := by
  intro segs
  induction segs with
  | nil => intro _ h; exact absurd rfl h
  | cons s rest ih =>
    intro h _
    have hs : '/' ∉ s := h s (List.mem_cons_self s rest)
    cases rest with
    | nil => exact splitOnChar_no_sep '/' s hs
    | cons t ts =>
      rw [joinSlash_cons s (t :: ts) (by simp), splitOnChar_append_sep '/' s _ hs,
        ih (fun x hx => h x (List.mem_cons_of_mem s hx)) (by simp)]

/-- C7 amended: for non-virtual-group directory segments (none of which
is itself named `route.ts` or contains a separator), the endpoint
generated for `app/<segments>/route.ts` is the segments each prefixed
by `/`, followed by one trailing `/` contributed by the route-file
segment.  In particular, one directory `D` directly under the routing
root yields `"/" ++ D ++ "/"` — with a trailing separator — and deeper
nesting concatenates segments with `/`. -/
theorem C7_amended_endpoint_shape (ds : List (List Char))
    (h : ∀ s ∈ ds, '/' ∉ s ∧ ¬(s.head? = some '(' ∧ s.getLast? = some ')')
      ∧ s ≠ str "route.ts") :
    rel_path_to_endpoint (String.mk (joinSlash (str "app" :: (ds ++ [str "route.ts"]))))
      = .ok (String.mk ((ds.flatMap (fun d => '/' :: d)) ++ ['/'])) := by
  have htail : joinSlash (str "app" :: (ds ++ [str "route.ts"]))
      = str "app" ++ '/' :: joinSlash (ds ++ [str "route.ts"]) :=
    joinSlash_cons _ _ (by simp)
  have harg : String.mk (joinSlash (str "app" :: (ds ++ [str "route.ts"])))
      = String.mk (str "app/" ++ joinSlash (ds ++ [str "route.ts"])) := by
    rw [htail]; rfl
  rw [harg]
  have hpre : (str "app/").isPrefixOf
      (String.mk (str "app/" ++ joinSlash (ds ++ [str "route.ts"]))).data = true :=
    List.isPrefixOf_iff_prefix.mpr (List.prefix_append _ _)
  have hsuf : endsWithList (str "route.ts")
      (String.mk (str "app/" ++ joinSlash (ds ++ [str "route.ts"]))).data = true := by
    obtain ⟨p, hp⟩ := joinSlash_ends ds (str "route.ts")
    show endsWithList (str "route.ts") (str "app/" ++ joinSlash (ds ++ [str "route.ts"])) = true
    rw [hp, ← List.append_assoc]
    unfold endsWithList
    apply List.isPrefixOf_iff_prefix.mpr
    rw [List.reverse_append]
    exact List.prefix_append _ _
  simp only [rel_path_to_endpoint]
  rw [if_neg (by push_neg; exact ⟨hpre, hsuf⟩)]
  have hdrop : (String.mk (str "app/" ++ joinSlash (ds ++ [str "route.ts"]))).data.drop
      (str "app/").length = joinSlash (ds ++ [str "route.ts"]) := List.drop_left _ _
  rw [hdrop]
  have hsegs : ∀ s ∈ ds ++ [str "route.ts"], '/' ∉ s := by
    intro s hs
    rcases List.mem_append.mp hs with hm | hm
    · exact (h s hm).1
    · simp only [List.mem_singleton] at hm
      subst hm
      decide
  rw [splitOnChar_joinSlash (ds ++ [str "route.ts"]) hsegs (by simp), List.flatMap_append]
  have hfm : ∀ (l : List (List Char)),
      (∀ s ∈ l, '/' ∉ s ∧ ¬(s.head? = some '(' ∧ s.getLast? = some ')')
        ∧ s ≠ str "route.ts") →
      l.flatMap (fun segment =>
          if segment.head? = some '(' ∧ segment.getLast? = some ')' then []
          else if segment = str "route.ts" then ['/']
          else '/' :: segment)
        = l.flatMap (fun d => '/' :: d) := by
    intro l
    induction l with
    | nil => intro _; rfl
    | cons s rest ih =>
      intro hl
      have hs := hl s (List.mem_cons_self s rest)
      rw [List.flatMap_cons, List.flatMap_cons,
        ih (fun x hx => hl x (List.mem_cons_of_mem s hx))]
      congr 1
      rw [if_neg hs.2.1, if_neg hs.2.2]
  rw [hfm ds h]
  rfl

/-- C7 amended, witness: for the single directory `users` directly
under the routing root the theorem yields endpoint `/users/`. -/
theorem C7_amended_witness :
    rel_path_to_endpoint (String.mk (joinSlash (str "app" :: ([str "users"] ++ [str "route.ts"]))))
      = .ok (String.mk ((([str "users"]).flatMap (fun d => '/' :: d)) ++ ['/'])) :=
  C7_amended_endpoint_shape [str "users"] (by decide)

/-- C4: the claim says every children list at every depth is sorted
after `sort_app_route`, including grandchildren reached through a node
with exactly one child.  But the code recurses into children only when
there are at least two (`if app_struct.children.len() > 1`), so under a
single-child root the grandchildren keep their build order: for the
fixture whose root has the single child `x` with children named
`b`, `a`, the sorted tree still lists them as `b`, `a`. -/
theorem C4_single_child_subtree_unsorted :
    ((sort_app_route c4_example_tree).children.map (fun c => c.children.map AppRoute.name))
      = [["b", "a"]]
    ∧ (["b", "a"] : List String) ≠ ["a", "b"] := by
  constructor
  · rw [c4_example_tree, sort_app_route]
    simp [insertion_sort, ordered_insert, AppRoute.children, AppRoute.name]
  · decide

set_option maxRecDepth 100000 in
/-- C8: compiling a route file that exports a `get` and a `post`
handler (with any deferredness flags) emits exactly one combined
`.all` registration, mounted on the root application at the declared
path, whose body is the GET branch followed by the POST branch followed
by the configured method-not-allowed response; the evaluation of the
branch chain sends a GET request to the `get` handler, a POST request
to the `post` handler, and any other method (e.g. PUT) past every
branch to the not-allowed response; and in the emitted text each
handler's invocation is preceded by `await ` exactly when that handler
is deferred. -/
theorem C8_get_post_registration (a1 a2 : Bool) :
    compile_route (fun _ => .ok [⟨"get", a1⟩, ⟨"post", a2⟩]) "" "" "src" ".." none
        Convention.default Config.default (.mk "foo" "app/foo" (some "route.ts") none [] none)
      = .ok (handler_import ⟨"get", a1⟩ "app_foo_get" ".." "app/foo" "route.ts"
              ++ handler_import ⟨"post", a2⟩ "app_foo_post" ".." "app/foo" "route.ts",
             "// ===== routes [foo | app/foo] =====\n"
              ++ endpoint_registration "app" "/foo/"
                  (handler_branch "app_foo_get" ⟨"get", a1⟩
                    ++ handler_branch "app_foo_post" ⟨"post", a2⟩) Config.default
              ++ "\n",
             none)
    ∧ countSub (str ".all(")
        ("// ===== routes [foo | app/foo] =====\n"
          ++ endpoint_registration "app" "/foo/"
              (handler_branch "app_foo_get" ⟨"get", a1⟩
                ++ handler_branch "app_foo_post" ⟨"post", a2⟩) Config.default
          ++ "\n").data = 1
    ∧ countSub (str "app.all(\"/foo/\"")
        ("// ===== routes [foo | app/foo] =====\n"
          ++ endpoint_registration "app" "/foo/"
              (handler_branch "app_foo_get" ⟨"get", a1⟩
                ++ handler_branch "app_foo_post" ⟨"post", a2⟩) Config.default
          ++ "\n").data = 1
    ∧ dispatch [⟨"get", a1⟩, ⟨"post", a2⟩] "GET" = some ⟨"get", a1⟩
    ∧ dispatch [⟨"get", a1⟩, ⟨"post", a2⟩] "POST" = some ⟨"post", a2⟩
    ∧ dispatch [⟨"get", a1⟩, ⟨"post", a2⟩] "PUT" = none
    ∧ (countSub (str "await app_foo_get(")
        (handler_branch "app_foo_get" ⟨"get", a1⟩
          ++ handler_branch "app_foo_post" ⟨"post", a2⟩).data ≠ 0 ↔ a1 = true)
    ∧ (countSub (str "await app_foo_post(")
        (handler_branch "app_foo_get" ⟨"get", a1⟩
          ++ handler_branch "app_foo_post" ⟨"post", a2⟩).data ≠ 0 ↔ a2 = true)
    ∧ countSub (str "app_foo_get(req, res)")
        (handler_branch "app_foo_get" ⟨"get", a1⟩
          ++ handler_branch "app_foo_post" ⟨"post", a2⟩).data = 1
    ∧ countSub (str "app_foo_post(req, res)")
        (handler_branch "app_foo_get" ⟨"get", a1⟩
          ++ handler_branch "app_foo_post" ⟨"post", a2⟩).data = 1 := by
  cases a1 <;> cases a2 <;> exact ⟨rfl, by decide, by decide, rfl, rfl, rfl,
    by decide, by decide, by decide, by decide⟩

/-- Helper: a monadic fold over `Except` fails when some list element
makes the step fail from every accumulated state. -/
theorem foldlM_except_error {α β ε : Type} (f : β → α → Except ε β) (x : α) :
    ∀ (l : List α), x ∈ l → (∀ b, ∃ e, f b x = .error e) →
      ∀ b, ∃ e, l.foldlM f b = .error e := by
  intro l
  induction l with
  | nil => intro hx; exact absurd hx (List.not_mem_nil x)
  | cons a l ih =>
    intro hx hf b
    rw [List.foldlM_cons]
    rcases hfa : f b a with e | b2
    · exact ⟨e, rfl⟩
    · rcases List.mem_cons.mp hx with h1 | h1
      · obtain ⟨e, habs⟩ := hf b
        rw [← h1, habs] at hfa
        cases hfa
      · obtain ⟨e, hrec⟩ := ih h1 hf b2
        exact ⟨e, hrec⟩

/-- Helper: `compile_route` fails on any node owning a route file whose
scan yields no handlers (whatever else the node carries, and whatever
the emission state is). -/
theorem compile_route_error_of_empty_scan
    (scan : String → Except String (List EndpointHandler))
    (imports routes src dist : String) (nearest : Option SubRouter)
    (conv : Convention) (cfg : Config) (t : AppRoute) (r : String)
    (hr : t.route = some r)
    (hs : scan (src ++ "/" ++ t.relative_path ++ "/" ++ r) = .ok []) :
    ∃ e, compile_route scan imports routes src dist nearest conv cfg t = .error e := by
  rcases hm : t.middlewares with _ | mws
  · rcases he : rel_path_to_endpoint (t.relative_path ++ "/" ++ r) with e | uri
    · exact ⟨e, by simp [compile_route, hm, hr, he]⟩
    · exact ⟨.emptyHandlerSet (src ++ "/" ++ t.relative_path ++ "/" ++ r),
        by simp [compile_route, hm, hr, he, hs]⟩
  · rcases hid : route_name_to_identifier t.name with e | idn
    · exact ⟨e, by simp [compile_route, hm, hid]⟩
    · rcases he : rel_path_to_endpoint (t.relative_path ++ "/" ++ r) with e | uri
      · exact ⟨e, by simp [compile_route, hm, hid, hr, he]⟩
      · exact ⟨.emptyHandlerSet (src ++ "/" ++ t.relative_path ++ "/" ++ r),
          by simp [compile_route, hm, hid, hr, he, hs]⟩

/-- Helper: the traversal fails whenever the subtree contains a node
owning a route file whose scan yields no handlers. -/
theorem traverse_route_error_of_empty_scan
    (scan : String → Except String (List EndpointHandler))
    (src dist : String) (conv : Convention) (cfg : Config)
    (n t : AppRoute) (r : String)
    (hsub : SubNode n t) (hr : n.route = some r)
    (hs : scan (src ++ "/" ++ n.relative_path ++ "/" ++ r) = .ok []) :
    ∀ (nearest : Option SubRouter) (imports routes : String),
      ∃ e, traverse_route scan src dist conv cfg t nearest imports routes = .error e := by
  induction hsub with
  | refl =>
    intro nearest imports routes
    obtain ⟨e, hce⟩ :=
      compile_route_error_of_empty_scan scan imports routes src dist nearest conv cfg n r hr hs
    refine ⟨e, ?_⟩
    rw [traverse_route]
    simp only [hr, Option.isSome_some, Bool.true_or, if_true, hce]
  | child hc hsub2 ih =>
    rename_i c t
    intro nearest imports routes
    rw [traverse_route]
    rcases hstep : (if t.route.isSome || t.middlewares.isSome then
        compile_route scan imports routes src dist nearest conv cfg t
      else Except.ok (imports, routes, none)) with e | triple
    · exact ⟨e, rfl⟩
    · obtain ⟨i2, r2, nsr⟩ := triple
      have hx : (⟨c, hc⟩ : { x // x ∈ t.children }) ∈ t.children.attach :=
        List.mem_attach _ _
      have hf : ∀ b : String × String,
          ∃ e, traverse_route scan src dist conv cfg c (nsr.or nearest) b.1 b.2 = .error e :=
        fun b => ih (nsr.or nearest) b.1 b.2
      obtain ⟨e, hfold⟩ := foldlM_except_error
        (fun (acc : String × String) (x : { x // x ∈ t.children }) =>
          traverse_route scan src dist conv cfg x.1 (nsr.or nearest) acc.1 acc.2)
        ⟨c, hc⟩ t.children.attach hx hf (i2, r2)
      exact ⟨e, hfold⟩

/-- Helper: `compile_app_struct` fails whenever the traversal fails
from every emission state. -/
theorem compile_app_struct_error
    (scan : String → Except String (List EndpointHandler))
    (s : AppStruct) (conv : Convention) (cfg : Config)
    (h : ∀ imports routes, ∃ e,
      traverse_route scan s.src_dir s.dist_to_src_relpath conv cfg s.app none imports routes
        = .error e) :
    ∃ e, compile_app_struct scan s conv cfg = .error e := by
  obtain ⟨e, he⟩ := h
    ((settings_fragment s.dist_to_src_relpath conv s.settings).1
      ++ (top_level_middlewares_fragment s.dist_to_src_relpath conv s.top_level_middlewares).1
      ++ (tail_middlewares_fragment s.dist_to_src_relpath conv s.tail_middlewares).1) ""
  exact ⟨e, by simp only [compile_app_struct]; rw [he]⟩

/-- C9: (1) whenever the (sorted) route tree contains a node owning a
route file that parses to zero handlers, the whole run fails: `compile`
returns an error, so the output write — which happens only for the
`.ok` content produced after the entire tree has been compiled — never
happens and no output file is written; (2) a node carrying only such a
route file fails with precisely the empty-handler-set error naming the
offending file path. -/
theorem C9_empty_handler_set_aborts :
    (∀ (scan : String → Except String (List EndpointHandler)) (s : AppStruct)
        (conv : Convention) (cfg : Config) (n : AppRoute) (r : String),
      SubNode n (sort_app_route s.app) → n.route = some r →
      scan (s.src_dir ++ "/" ++ n.relative_path ++ "/" ++ r) = .ok [] →
      ∃ e, compile scan s conv cfg = .error e)
    ∧ (∀ (scan : String → Except String (List EndpointHandler))
        (imports routes src dist : String) (nearest : Option SubRouter)
        (conv : Convention) (cfg : Config) (t : AppRoute) (r uri : String),
      t.middlewares = none → t.route = some r →
      rel_path_to_endpoint (t.relative_path ++ "/" ++ r) = .ok uri →
      scan (src ++ "/" ++ t.relative_path ++ "/" ++ r) = .ok [] →
      compile_route scan imports routes src dist nearest conv cfg t
        = .error (.emptyHandlerSet (src ++ "/" ++ t.relative_path ++ "/" ++ r))) := by
  constructor
  · intro scan s conv cfg n r hsub hr hs
    have htrav := traverse_route_error_of_empty_scan scan s.src_dir s.dist_to_src_relpath
      conv cfg n (sort_app_route s.app) r hsub hr hs
    obtain ⟨e, hcas⟩ := compile_app_struct_error scan
      { s with app := sort_app_route s.app } conv cfg (fun imports routes => htrav none imports routes)
    exact ⟨e, by simp only [compile]; rw [hcas]⟩
  · intro scan imports routes src dist nearest conv cfg t r uri hm hr he hs
    simp [compile_route, hm, hr, he, hs]

/-- C9 witness: a root that owns only a `route.ts` whose scan yields no
handlers makes the whole run fail, and its `compile_route` fails with
the empty-handler-set error naming `src/app/route.ts`. -/
theorem C9_empty_handler_set_witness :
    (∃ e, compile scan_empty c9_example_struct Convention.default Config.default = .error e)
    ∧ compile_route scan_empty "" "" "src" ".." none Convention.default Config.default
        (.mk "app" "app" (some "route.ts") none [] none)
      = .error (.emptyHandlerSet ("src" ++ "/" ++ "app" ++ "/" ++ "route.ts")) := by
  constructor
  · refine C9_empty_handler_set_aborts.1 scan_empty c9_example_struct Convention.default
      Config.default (.mk "app" "app" (some "route.ts") none [] none) "route.ts" ?_ rfl rfl
    have hsorted : sort_app_route c9_example_struct.app
        = .mk "app" "app" (some "route.ts") none [] none := by
      show sort_app_route (.mk "app" "app" (some "route.ts") none [] none)
        = .mk "app" "app" (some "route.ts") none [] none
      rw [sort_app_route]
      simp [insertion_sort]
    rw [hsorted]
    exact SubNode.refl _
  · exact C9_empty_handler_set_aborts.2 scan_empty "" "" "src" ".." none Convention.default
      Config.default (.mk "app" "app" (some "route.ts") none [] none) "route.ts" "/"
      rfl rfl rfl rfl
